import Mathlib

/-!
# Verification of the bookit-api booking engine

Shallow embedding of the booking lifecycle core of the repository:
`services/booking_service.py` (BookingService) and
`repositories/booking_repository.py` (BookingRepository), together with the
parts of the user / service repositories the booking engine consults
(existence lookup by integer id, `is_active`, `duration_minutes`).

Modelling decisions:
* Timestamps (`datetime`) are modelled as integers counting seconds
  (a single canonical clock, per the spec's §6); `timedelta(minutes=m)`
  is `60 * m` seconds.  Python compares `datetime`s as a total order, which
  integer comparison mirrors exactly.
* The MongoDB `bookings` collection is a `List Booking` kept in insertion
  order; `find_one({"id": i})` is `List.find?` (first match), `update_one`
  updates the first matching document, `insert_one` appends.
* The `counters` auto-increment (`find_one_and_update` with `$inc` and
  `return_document=True`, i.e. AFTER) is a natural-number field starting at
  0; each allocation returns the incremented value, so the first id is 1.
* Every Python `raise ValueError(msg)` site becomes a distinct constructor
  of `Err`; `Err.kind` assigns the taxonomy kind (NotFound / InvalidInput /
  InvalidState / Conflict / Unauthorized) that the spec's §7 gives each
  message.
* `async` methods are sequential in the reference semantics; each engine
  operation takes the current clock value `now` as a parameter (the code
  calls `datetime.utcnow()` during the operation).
* State-changing operations return `(Except Err α) × DB`: the resulting
  store state is threaded explicitly on both success and failure, mirroring
  the fact that a Python exception leaves whatever writes already happened.
-/

/-- `BookingStatus` from `models/booking.py`: a four-value enum. -/
inductive BookingStatus where
  | pending
  | confirmed
  | cancelled
  | completed
deriving DecidableEq, Repr

/-- `Booking` from `models/booking.py`. -/
structure Booking where
  id : Nat
  user_id : Nat
  service_id : Nat
  start_time : Int
  end_time : Int
  status : BookingStatus
  created_at : Int
deriving DecidableEq, Repr

/-- `Service` from `models/service.py`, restricted to the fields the booking
engine reads (`title`, `description`, `price` are never consulted by
`BookingService`). -/
structure Service where
  id : Nat
  duration_minutes : Nat
  is_active : Bool
deriving DecidableEq, Repr

/-- `User` from `models/user.py`, restricted to the only fact the booking
engine consults: existence under an integer id. -/
structure User where
  id : Nat
deriving DecidableEq, Repr

/-- The MongoDB state the booking engine touches: the `bookings` collection
(in insertion order) and the `booking_id` row of the `counters` collection. -/
structure DB where
  bookings : List Booking
  counterSeq : Nat
deriving DecidableEq, Repr

/-- The read-only external collaborators: the `users` and `services`
collections, as consulted through `UserRepository.get_by_id` and
`ServiceRepository.get_by_id`. -/
structure Env where
  users : List User
  services : List Service
deriving DecidableEq, Repr

/-- `UserRepository.get_by_id`: `find_one({"id": user_id})`. -/
def userGetById (env : Env) (user_id : Nat) : Option User :=
  env.users.find? (fun u => u.id == user_id)

/-- `ServiceRepository.get_by_id`: `find_one({"id": service_id})`. -/
def serviceGetById (env : Env) (service_id : Nat) : Option Service :=
  env.services.find? (fun s => s.id == service_id)

/-- Status filter of the conflict query: `status ∈ {PENDING, CONFIRMED}`. -/
def isActiveStatus (s : BookingStatus) : Bool :=
  s == .pending || s == .confirmed

namespace BookingRepository

/-- `BookingRepository.get_by_id`: `find_one({"id": booking_id})`. -/
def get_by_id (db : DB) (booking_id : Nat) : Option Booking :=
  db.bookings.find? (fun b => b.id == booking_id)

/-- `BookingRepository.get_by_user_id`: `find({"user_id": user_id})`. -/
def get_by_user_id (db : DB) (user_id : Nat) : List Booking :=
  db.bookings.filter (fun b => b.user_id == user_id)

/-- `BookingRepository.get_conflicting_bookings`: documents with the given
`service_id`, status PENDING or CONFIRMED, `start_time < end` and
`end_time > start`. -/
def get_conflicting_bookings (db : DB) (service_id : Nat)
    (start_time end_time : Int) : List Booking :=
  db.bookings.filter (fun b =>
    b.service_id == service_id && isActiveStatus b.status &&
      (b.start_time < end_time && b.end_time > start_time))

/-- `update_one({"id": id}, {"$set": {"status": s}})`: rewrite the first
document whose `id` matches; leave the rest untouched. -/
def setStatusFirst : List Booking → Nat → BookingStatus → List Booking
  | [], _, _ => []
  | b :: rest, booking_id, s =>
      if b.id == booking_id then { b with status := s } :: rest
      else b :: setStatusFirst rest booking_id s

/-- `BookingRepository.update_status`: `update_one` with `$set status`, then,
when `modified_count` is non-zero, a re-fetch via `get_by_id`.  A `$set` to
the value already stored matches but does not modify, so `modified_count` is
zero exactly when no document matched or the first match already had the
status. -/
def update_status (db : DB) (booking_id : Nat) (status : BookingStatus) :
    Option Booking × DB :=
  match get_by_id db booking_id with
  | none => (none, db)
  | some b =>
      if b.status = status then (none, db)
      else
        let db' : DB := { db with bookings := setStatusFirst db.bookings booking_id status }
        (get_by_id db' booking_id, db')

/-- `BookingRepository._get_next_id`: atomic `$inc` on `counters.booking_id`
returning the post-increment value (first allocation yields 1). -/
def get_next_id (db : DB) : Nat × DB :=
  (db.counterSeq + 1, { db with counterSeq := db.counterSeq + 1 })

/-- `BookingRepository.create`: stamp `created_at = now`, allocate the next
id, store the record, and return the stored document. -/
def create (db : DB) (user_id service_id : Nat) (start_time end_time : Int)
    (status : BookingStatus) (now : Int) : Booking × DB :=
  let alloc := get_next_id db
  let b : Booking :=
    { id := alloc.1, user_id := user_id, service_id := service_id,
      start_time := start_time, end_time := end_time,
      status := status, created_at := now }
  (b, { alloc.2 with bookings := alloc.2.bookings ++ [b] })

end BookingRepository

/-- One constructor per `raise ValueError(...)` site in
`services/booking_service.py`. -/
inductive Err where
  | userNotFound
  | serviceNotFound
  | serviceUnavailable
  | startNotFuture
  | slotConflict
  | bookingNotFound
  | unauthorizedConfirm
  | onlyPendingConfirm
  | pastBookingConfirm
  | confirmUpdateFailed
  | unauthorizedCancel
  | cannotCancelStatus (s : BookingStatus)
  | within24Hours
  | cancelUpdateFailed
  | onlyConfirmedComplete
  | beforeEndTime
  | completeUpdateFailed
deriving DecidableEq, Repr

/-- The error taxonomy of spec §7. -/
inductive ErrKind where
  | notFound
  | invalidInput
  | invalidState
  | conflict
  | unauthorized
  | storeFailure
deriving DecidableEq, Repr

/-- The taxonomy kind spec §7 assigns to each raise site's message. -/
def Err.kind : Err → ErrKind
  | .userNotFound => .notFound
  | .serviceNotFound => .notFound
  | .bookingNotFound => .notFound
  | .startNotFuture => .invalidInput
  | .serviceUnavailable => .invalidState
  | .onlyPendingConfirm => .invalidState
  | .pastBookingConfirm => .invalidState
  | .cannotCancelStatus _ => .invalidState
  | .within24Hours => .invalidState
  | .onlyConfirmedComplete => .invalidState
  | .beforeEndTime => .invalidState
  | .slotConflict => .conflict
  | .unauthorizedConfirm => .unauthorized
  | .unauthorizedCancel => .unauthorized
  | .confirmUpdateFailed => .storeFailure
  | .cancelUpdateFailed => .storeFailure
  | .completeUpdateFailed => .storeFailure

/-- Python truthiness of the optional `user_id: int = None` parameter of
`confirm_booking`: `None` and `0` are falsy. -/
def truthyId : Option Nat → Bool
  | none => false
  | some u => u != 0

namespace BookingService

/-- `BookingService.create_booking`: validate user, service, active flag and
future start time, compute `end_time = start_time + duration`, reject on
conflicts, then persist a PENDING booking. -/
def create_booking (env : Env) (db : DB) (user_id service_id : Nat)
    (start_time : Int) (now : Int) : Except Err Booking × DB :=
  match userGetById env user_id with
  | none => (.error .userNotFound, db)
  | some _ =>
    match serviceGetById env service_id with
    | none => (.error .serviceNotFound, db)
    | some service =>
      if !service.is_active then (.error .serviceUnavailable, db)
      else if start_time ≤ now then (.error .startNotFuture, db)
      else
        let end_time := start_time + 60 * (service.duration_minutes : Int)
        let conflicts :=
          BookingRepository.get_conflicting_bookings db service_id start_time end_time
        if conflicts ≠ [] then (.error .slotConflict, db)
        else
          let created :=
            BookingRepository.create db user_id service_id start_time end_time .pending now
          (.ok created.1, created.2)

/-- `BookingService.confirm_booking`: fetch, optional ownership check
(skipped for a falsy `user_id`), require PENDING status and a future start,
then set CONFIRMED. -/
def confirm_booking (db : DB) (booking_id : Nat) (user_id : Option Nat)
    (now : Int) : Except Err Booking × DB :=
  match BookingRepository.get_by_id db booking_id with
  | none => (.error .bookingNotFound, db)
  | some booking =>
    if truthyId user_id && booking.user_id != user_id.getD 0 then
      (.error .unauthorizedConfirm, db)
    else if booking.status ≠ .pending then (.error .onlyPendingConfirm, db)
    else if booking.start_time ≤ now then (.error .pastBookingConfirm, db)
    else
      match BookingRepository.update_status db booking_id .confirmed with
      | (none, db') => (.error .confirmUpdateFailed, db')
      | (some updated, db') => (.ok updated, db')

/-- `BookingService.cancel_booking`: fetch, ownership check, reject terminal
statuses, enforce the 24-hour window
(`(start_time - now).total_seconds() / 3600 < 24`, modelled exactly over
ℚ), then set CANCELLED. -/
def cancel_booking (db : DB) (booking_id user_id : Nat) (now : Int) :
    Except Err Booking × DB :=
  match BookingRepository.get_by_id db booking_id with
  | none => (.error .bookingNotFound, db)
  | some booking =>
    if booking.user_id ≠ user_id then (.error .unauthorizedCancel, db)
    else if booking.status = .cancelled ∨ booking.status = .completed then
      (.error (.cannotCancelStatus booking.status), db)
    else if ((booking.start_time - now : Int) : ℚ) / 3600 < 24 then
      (.error .within24Hours, db)
    else
      match BookingRepository.update_status db booking_id .cancelled with
      | (none, db') => (.error .cancelUpdateFailed, db')
      | (some updated, db') => (.ok updated, db')

/-- `BookingService.complete_booking`: fetch, require CONFIRMED status and
`end_time ≤ now`, then set COMPLETED. -/
def complete_booking (db : DB) (booking_id : Nat) (now : Int) :
    Except Err Booking × DB :=
  match BookingRepository.get_by_id db booking_id with
  | none => (.error .bookingNotFound, db)
  | some booking =>
    if booking.status ≠ .confirmed then (.error .onlyConfirmedComplete, db)
    else if booking.end_time > now then (.error .beforeEndTime, db)
    else
      match BookingRepository.update_status db booking_id .completed with
      | (none, db') => (.error .completeUpdateFailed, db')
      | (some updated, db') => (.ok updated, db')

/-- `BookingService.get_upcoming_bookings`: the user's bookings with a
future start and PENDING/CONFIRMED status. -/
def get_upcoming_bookings (db : DB) (user_id : Nat) (now : Int) : List Booking :=
  (BookingRepository.get_by_user_id db user_id).filter (fun b =>
    b.start_time > now &&
      (b.status == .pending || b.status == .confirmed))

/-- `BookingService.get_booking_history`: the user's bookings whose end has
passed or whose status is CANCELLED/COMPLETED. -/
def get_booking_history (db : DB) (user_id : Nat) (now : Int) : List Booking :=
  (BookingRepository.get_by_user_id db user_id).filter (fun b =>
    b.end_time ≤ now ||
      (b.status == .cancelled || b.status == .completed))

end BookingService

/-! ## Derived notions the claims speak about -/

/-- The fields of a booking other than `status`. -/
def Booking.core (b : Booking) : Nat × Nat × Nat × Int × Int × Int :=
  (b.id, b.user_id, b.service_id, b.start_time, b.end_time, b.created_at)

/-- Two bookings double-book a service: same service, both PENDING or
CONFIRMED, and half-open overlapping windows.  This is a symmetric relation. -/
def activeConflict (a b : Booking) : Prop :=
  a.service_id = b.service_id ∧ isActiveStatus a.status = true ∧
    isActiveStatus b.status = true ∧
    a.start_time < b.end_time ∧ a.end_time > b.start_time

instance (a b : Booking) : Decidable (activeConflict a b) := by
  unfold activeConflict; infer_instance

/-- No two distinct stored bookings double-book a service. -/
def NoDoubleBooking (l : List Booking) : Prop :=
  l.Pairwise (fun a b => ¬ activeConflict a b)

/-- One engine call, with its parameters (including the clock value the call
observes). -/
inductive Op where
  | create (user_id service_id : Nat) (start_time now : Int)
  | confirm (booking_id : Nat) (user_id : Option Nat) (now : Int)
  | cancel (booking_id user_id : Nat) (now : Int)
  | complete (booking_id : Nat) (now : Int)

/-- The store state an engine call leaves behind (result discarded). -/
def applyOp (env : Env) (db : DB) : Op → DB
  | .create u s st n => (BookingService.create_booking env db u s st n).2
  | .confirm b u n => (BookingService.confirm_booking db b u n).2
  | .cancel b u n => (BookingService.cancel_booking db b u n).2
  | .complete b n => (BookingService.complete_booking db b n).2

/-- Store states reachable from the empty store via engine calls. -/
inductive Reachable (env : Env) : DB → Prop where
  | init : Reachable env ⟨[], 0⟩
  | step (db : DB) (op : Op) : Reachable env db → Reachable env (applyOp env db op)

/-- The four legal edges of the booking state machine:
Pending→Confirmed, Pending→Cancelled, Confirmed→Cancelled,
Confirmed→Completed. -/
def allowedEdge (a b : BookingStatus) : Prop :=
  (a = .pending ∧ b = .confirmed) ∨ (a = .pending ∧ b = .cancelled) ∨
    (a = .confirmed ∧ b = .cancelled) ∨ (a = .confirmed ∧ b = .completed)

/-! ## Helper lemmas about the store primitives -/

theorem find?_cons_true {α : Type} (p : α → Bool) (a : α) (rest : List α)
    (ha : p a = true) : (a :: rest).find? p = some a := by
  simp [List.find?, ha]

theorem find?_cons_false {α : Type} (p : α → Bool) (a : α) (rest : List α)
    (ha : p a = false) : (a :: rest).find? p = rest.find? p := by
  simp [List.find?, ha]

theorem find?_append_left_none {α : Type} {p : α → Bool} (l1 l2 : List α)
    (h : ∀ x ∈ l1, p x = false) : (l1 ++ l2).find? p = l2.find? p := by
  induction l1 with
  | nil => rfl
  | cons a t ih =>
    rw [List.cons_append, find?_cons_false p a _ (h a (by simp))]
    exact ih (fun x hx => h x (by simp [hx]))

theorem setStatusFirst_of_find_none (l : List Booking) (i : Nat) (s : BookingStatus)
    (h : l.find? (fun b => b.id == i) = none) :
    BookingRepository.setStatusFirst l i s = l := by
  induction l with
  | nil => rfl
  | cons a rest ih =>
    cases ha : (a.id == i) with
    | true => rw [find?_cons_true (fun b => b.id == i) a rest ha] at h; exact absurd h (by simp)
    | false =>
      rw [find?_cons_false (fun b => b.id == i) a rest ha] at h
      simp [BookingRepository.setStatusFirst, ha, ih h]

theorem setStatusFirst_decomp (l : List Booking) (i : Nat) (s : BookingStatus) (b : Booking)
    (h : l.find? (fun x => x.id == i) = some b) :
    ∃ l1 l2, l = l1 ++ b :: l2 ∧ (∀ x ∈ l1, (x.id == i) = false) ∧
      BookingRepository.setStatusFirst l i s = l1 ++ { b with status := s } :: l2 := by
  induction l with
  | nil => simp [List.find?] at h
  | cons a rest ih =>
    cases ha : (a.id == i) with
    | true =>
      rw [find?_cons_true (fun x => x.id == i) a rest ha] at h
      obtain rfl : a = b := by injection h
      exact ⟨[], rest, rfl, by simp, by simp [BookingRepository.setStatusFirst, ha]⟩
    | false =>
      rw [find?_cons_false (fun x => x.id == i) a rest ha] at h
      obtain ⟨l1, l2, hl, hl1, hs⟩ := ih h
      refine ⟨a :: l1, l2, by rw [hl]; rfl, ?_, ?_⟩
      · intro x hx
        rcases List.mem_cons.mp hx with rfl | hx
        · exact ha
        · exact hl1 x hx
      · simp [BookingRepository.setStatusFirst, ha, hs]

theorem find_setStatusFirst (l : List Booking) (i : Nat) (s : BookingStatus) (b : Booking)
    (h : l.find? (fun x => x.id == i) = some b) :
    (BookingRepository.setStatusFirst l i s).find? (fun x => x.id == i) =
      some { b with status := s } := by
  obtain ⟨l1, l2, _, hl1, hs⟩ := setStatusFirst_decomp l i s b h
  have hid : (b.id == i) = true := by
    have := List.find?_some h
    simpa using this
  rw [hs, find?_append_left_none _ _ hl1,
    find?_cons_true (fun x => x.id == i) _ l2 (by simpa using hid)]

theorem setStatusFirst_map_core (l : List Booking) (i : Nat) (s : BookingStatus) :
    (BookingRepository.setStatusFirst l i s).map Booking.core = l.map Booking.core := by
  induction l with
  | nil => rfl
  | cons a rest ih =>
    cases ha : (a.id == i) with
    | true => simp [BookingRepository.setStatusFirst, ha, Booking.core]
    | false => simp [BookingRepository.setStatusFirst, ha, ih, Booking.core]

/-- Membership in the conflict query, unfolded to a proposition. -/
theorem mem_get_conflicting_bookings (db : DB) (sid : Nat) (st en : Int) (b : Booking) :
    b ∈ BookingRepository.get_conflicting_bookings db sid st en ↔
      b ∈ db.bookings ∧ b.service_id = sid ∧
        (b.status = .pending ∨ b.status = .confirmed) ∧
        b.start_time < en ∧ b.end_time > st := by
  unfold BookingRepository.get_conflicting_bookings
  rw [List.mem_filter]
  simp only [Bool.and_eq_true, beq_iff_eq, Bool.or_eq_true, decide_eq_true_eq,
    isActiveStatus, and_assoc]

/-- `update_status` leaves every field except `status` of every stored
booking unchanged, and allocates nothing. -/
theorem update_status_frame (db : DB) (i : Nat) (s : BookingStatus) :
    (BookingRepository.update_status db i s).2.bookings.map Booking.core =
        db.bookings.map Booking.core ∧
      (BookingRepository.update_status db i s).2.counterSeq = db.counterSeq := by
  unfold BookingRepository.update_status
  cases h : BookingRepository.get_by_id db i with
  | none => exact ⟨rfl, rfl⟩
  | some b =>
    by_cases hs : b.status = s
    · simp [hs]
    · simp [hs, setStatusFirst_map_core]

/-! ## C2: the conflict / overlap predicate -/

/-- **C2**: an existing booking is reported by the store's conflict query for
a candidate window `[start, end)` iff it has the same `service_id`, its
status is Pending or Confirmed, and `existing.start < end ∧ existing.end >
start` (half-open overlap).  Concretely, against an existing booking
`[10:00, 11:00)` (36000–39600 s), the windows `[9:30,10:30)`,
`[10:30,11:30)`, `[10:15,10:45)`, `[9:00,12:00)` conflict while
`[8:00,9:00)` and `[12:00,13:00)` do not. -/
theorem conflict_query_overlap_characterization :
    (∀ (db : DB) (sid : Nat) (st en : Int) (b : Booking),
        b ∈ BookingRepository.get_conflicting_bookings db sid st en ↔
          b ∈ db.bookings ∧ b.service_id = sid ∧
            (b.status = .pending ∨ b.status = .confirmed) ∧
            b.start_time < en ∧ b.end_time > st) ∧
    (let ex : Booking := ⟨1, 7, 3, 36000, 39600, .confirmed, 0⟩
     let dbEx : DB := ⟨[ex], 1⟩
     BookingRepository.get_conflicting_bookings dbEx 3 34200 37800 = [ex] ∧
     BookingRepository.get_conflicting_bookings dbEx 3 37800 41400 = [ex] ∧
     BookingRepository.get_conflicting_bookings dbEx 3 36900 38700 = [ex] ∧
     BookingRepository.get_conflicting_bookings dbEx 3 32400 43200 = [ex] ∧
     BookingRepository.get_conflicting_bookings dbEx 3 28800 32400 = [] ∧
     BookingRepository.get_conflicting_bookings dbEx 3 43200 46800 = []) := by
  refine ⟨mem_get_conflicting_bookings, ?_⟩
  exact ⟨rfl, rfl, rfl, rfl, rfl, rfl⟩

/-! ## C8: upcoming / history filters -/

/-- **C8**: `get_upcoming_bookings` returns exactly the user's bookings with
`start_time > now` and status Pending/Confirmed; `get_booking_history`
returns exactly those with `end_time ≤ now` or status Cancelled/Completed.
The two are independent filters, not a partition: an in-progress Confirmed
booking (`start ≤ now < end`) appears in neither list, and over unconstrained
field values (`end < start`) a booking can appear in both. -/
theorem upcoming_history_filter_characterization :
    (∀ (db : DB) (uid : Nat) (now : Int) (b : Booking),
        (b ∈ BookingService.get_upcoming_bookings db uid now ↔
          b ∈ db.bookings ∧ b.user_id = uid ∧ b.start_time > now ∧
            (b.status = .pending ∨ b.status = .confirmed)) ∧
        (b ∈ BookingService.get_booking_history db uid now ↔
          b ∈ db.bookings ∧ b.user_id = uid ∧
            (b.end_time ≤ now ∨ b.status = .cancelled ∨ b.status = .completed))) ∧
    (let inProgress : Booking := ⟨1, 7, 3, 0, 3600, .confirmed, 0⟩
     let dbA : DB := ⟨[inProgress], 1⟩
     BookingService.get_upcoming_bookings dbA 7 100 = [] ∧
     BookingService.get_booking_history dbA 7 100 = [] ∧
     BookingRepository.get_by_user_id dbA 7 = [inProgress]) ∧
    (let inverted : Booking := ⟨1, 7, 3, 200, 50, .pending, 0⟩
     let dbB : DB := ⟨[inverted], 1⟩
     BookingService.get_upcoming_bookings dbB 7 100 = [inverted] ∧
     BookingService.get_booking_history dbB 7 100 = [inverted]) := by
  refine ⟨?_, ⟨rfl, rfl, rfl⟩, ⟨rfl, rfl⟩⟩
  intro db uid now b
  constructor
  · unfold BookingService.get_upcoming_bookings BookingRepository.get_by_user_id
    rw [List.mem_filter, List.mem_filter]
    simp only [Bool.and_eq_true, beq_iff_eq, Bool.or_eq_true, decide_eq_true_eq]
    tauto
  · unfold BookingService.get_booking_history BookingRepository.get_by_user_id
    rw [List.mem_filter, List.mem_filter]
    simp only [Bool.and_eq_true, beq_iff_eq, Bool.or_eq_true, decide_eq_true_eq]
    tauto

/-! ## Equational descriptions of the three transition operations -/

/-- Point lookup after a first-match status rewrite. -/
theorem get_by_id_setStatusFirst (db : DB) (bid : Nat) (s : BookingStatus) (b : Booking)
    (h : BookingRepository.get_by_id db bid = some b) :
    BookingRepository.get_by_id
        { db with bookings := BookingRepository.setStatusFirst db.bookings bid s } bid =
      some { b with status := s } :=
  find_setStatusFirst db.bookings bid s b h

theorem confirm_booking_eq (db : DB) (bid : Nat) (uid : Option Nat) (now : Int) :
    BookingService.confirm_booking db bid uid now =
      match BookingRepository.get_by_id db bid with
      | none => (.error .bookingNotFound, db)
      | some b =>
        if truthyId uid && b.user_id != uid.getD 0 then
          (.error .unauthorizedConfirm, db)
        else if b.status ≠ .pending then (.error .onlyPendingConfirm, db)
        else if b.start_time ≤ now then (.error .pastBookingConfirm, db)
        else (.ok { b with status := .confirmed },
          { db with bookings :=
              BookingRepository.setStatusFirst db.bookings bid .confirmed }) := by
  unfold BookingService.confirm_booking
  cases hb : BookingRepository.get_by_id db bid with
  | none => rfl
  | some b =>
    dsimp only
    split_ifs with h1 h2 h3
    · rfl
    · rfl
    · rfl
    · unfold BookingRepository.update_status
      rw [hb]
      dsimp only
      rw [if_neg (show ¬ b.status = BookingStatus.confirmed by simp_all)]
      rw [get_by_id_setStatusFirst db bid BookingStatus.confirmed b hb]

theorem cancel_booking_eq (db : DB) (bid uid : Nat) (now : Int) :
    BookingService.cancel_booking db bid uid now =
      match BookingRepository.get_by_id db bid with
      | none => (.error .bookingNotFound, db)
      | some b =>
        if b.user_id ≠ uid then (.error .unauthorizedCancel, db)
        else if b.status = .cancelled ∨ b.status = .completed then
          (.error (.cannotCancelStatus b.status), db)
        else if ((b.start_time - now : Int) : ℚ) / 3600 < 24 then
          (.error .within24Hours, db)
        else (.ok { b with status := .cancelled },
          { db with bookings :=
              BookingRepository.setStatusFirst db.bookings bid .cancelled }) := by
  unfold BookingService.cancel_booking
  cases hb : BookingRepository.get_by_id db bid with
  | none => rfl
  | some b =>
    dsimp only
    split_ifs with h1 h2 h3
    · rfl
    · rfl
    · rfl
    · unfold BookingRepository.update_status
      rw [hb]
      dsimp only
      rw [if_neg (show ¬ b.status = BookingStatus.cancelled from fun hc => h2 (Or.inl hc))]
      rw [get_by_id_setStatusFirst db bid BookingStatus.cancelled b hb]

theorem complete_booking_eq (db : DB) (bid : Nat) (now : Int) :
    BookingService.complete_booking db bid now =
      match BookingRepository.get_by_id db bid with
      | none => (.error .bookingNotFound, db)
      | some b =>
        if b.status ≠ .confirmed then (.error .onlyConfirmedComplete, db)
        else if b.end_time > now then (.error .beforeEndTime, db)
        else (.ok { b with status := .completed },
          { db with bookings :=
              BookingRepository.setStatusFirst db.bookings bid .completed }) := by
  unfold BookingService.complete_booking
  cases hb : BookingRepository.get_by_id db bid with
  | none => rfl
  | some b =>
    dsimp only
    split_ifs with h1 h2
    · rfl
    · rfl
    · unfold BookingRepository.update_status
      rw [hb]
      dsimp only
      rw [if_neg (show ¬ b.status = BookingStatus.completed by simp_all)]
      rw [get_by_id_setStatusFirst db bid BookingStatus.completed b hb]

/-! ## C10: confirm's truthiness-based ownership check -/

/-- **C10**: `confirm_booking`'s ownership guard tests Python truthiness of
the optional `user_id`, so an actor id of `None` or `0` never yields the
Unauthorized error, even when the booking belongs to someone else; the
Unauthorized error arises exactly when the booking exists and the supplied
actor id is non-zero and differs from the booking's `user_id`. -/
theorem confirm_ownership_skipped_for_falsy_actor :
    ∀ (db : DB) (bid : Nat) (now : Int),
      (BookingService.confirm_booking db bid none now).1 ≠
          Except.error Err.unauthorizedConfirm ∧
      (BookingService.confirm_booking db bid (some 0) now).1 ≠
          Except.error Err.unauthorizedConfirm ∧
      (∀ uid : Option Nat,
        (BookingService.confirm_booking db bid uid now).1 =
            Except.error Err.unauthorizedConfirm ↔
          ∃ b, BookingRepository.get_by_id db bid = some b ∧
            ∃ u, uid = some u ∧ u ≠ 0 ∧ b.user_id ≠ u) := by
  intro db bid now
  have main : ∀ uid : Option Nat,
      (BookingService.confirm_booking db bid uid now).1 =
          Except.error Err.unauthorizedConfirm ↔
        ∃ b, BookingRepository.get_by_id db bid = some b ∧
          ∃ u, uid = some u ∧ u ≠ 0 ∧ b.user_id ≠ u := by
    intro uid
    rw [confirm_booking_eq]
    cases hb : BookingRepository.get_by_id db bid with
    | none => simp
    | some b =>
      dsimp only
      by_cases htr : (truthyId uid && b.user_id != uid.getD 0) = true
      · rw [if_pos htr]
        refine iff_of_true rfl ⟨b, rfl, ?_⟩
        obtain ⟨ht1, ht2⟩ := (Bool.and_eq_true _ _).mp htr
        cases uid with
        | none => exact absurd ht1 (by simp [truthyId])
        | some u =>
          exact ⟨u, rfl, by simpa [truthyId] using ht1, by simpa using ht2⟩
      · rw [if_neg htr]
        refine iff_of_false ?_ ?_
        · split_ifs with h2 h3 <;> simp
        · rintro ⟨b', hb', u, rfl, hu, hne⟩
          obtain rfl : b' = b := by injection hb'.symm
          exact htr (by simp [truthyId, hu, hne])
  refine ⟨?_, ?_, main⟩
  · intro h
    obtain ⟨b, _, u, hu, _⟩ := (main none).mp h
    cases hu
  · intro h
    obtain ⟨b, _, u, hu, hu0, _⟩ := (main (some 0)).mp h
    injection hu with h0
    exact hu0 h0.symm

/-! ## C4: the 24-hour cancellation window -/

/-- The float expression `(start - now).total_seconds() / 3600 < 24` of the
source, computed exactly over ℚ, is the integer comparison
`start - now < 86400` (seconds). -/
theorem hours_lt_24_iff (d : Int) : ((d : ℚ) / 3600 < 24) ↔ d < 86400 := by
  rw [div_lt_iff₀ (by norm_num : (0:ℚ) < 3600),
    show (24 : ℚ) * 3600 = ((86400 : Int) : ℚ) by norm_num, Int.cast_lt]

/-- **C4**: for a booking owned by the caller with non-terminal status,
`cancel_booking` succeeds (moving it to Cancelled) when `start_time - now`
is at least 24 hours — in particular at exactly 24h0m — and fails with the
InvalidState-kind error `within24Hours` when it is strictly less than 24
hours. -/
theorem cancel_window_boundary (db : DB) (bid uid : Nat) (now : Int) (b : Booking)
    (hb : BookingRepository.get_by_id db bid = some b)
    (hown : b.user_id = uid)
    (hst : b.status ≠ .cancelled ∧ b.status ≠ .completed) :
    (86400 ≤ b.start_time - now →
      (BookingService.cancel_booking db bid uid now).1 =
        .ok { b with status := .cancelled }) ∧
    (b.start_time - now < 86400 →
      (BookingService.cancel_booking db bid uid now).1 =
          .error .within24Hours ∧
        Err.kind .within24Hours = .invalidState) := by
  rw [cancel_booking_eq, hb]
  dsimp only
  rw [if_neg (by simp [hown]), if_neg (by simpa using hst)]
  constructor
  · intro h
    rw [if_neg (by rw [hours_lt_24_iff]; omega)]
  · intro h
    rw [if_pos (by rw [hours_lt_24_iff]; omega)]
    exact ⟨rfl, rfl⟩

/-- Witness for C4: cancelling at exactly 24h before start succeeds;
at 23h59m before start it fails `within24Hours`. -/
theorem cancel_window_boundary_witness :
    (BookingService.cancel_booking ⟨[⟨1, 7, 3, 86400, 90000, .pending, 0⟩], 1⟩ 1 7 0).1 =
        .ok ⟨1, 7, 3, 86400, 90000, .cancelled, 0⟩ ∧
    (BookingService.cancel_booking ⟨[⟨1, 7, 3, 86400, 90000, .pending, 0⟩], 1⟩ 1 7 60).1 =
        .error .within24Hours := by
  constructor
  · exact (cancel_window_boundary ⟨[⟨1, 7, 3, 86400, 90000, .pending, 0⟩], 1⟩ 1 7 0
      ⟨1, 7, 3, 86400, 90000, .pending, 0⟩ rfl rfl
      ⟨by decide, by decide⟩).1 (by norm_num)
  · exact ((cancel_window_boundary ⟨[⟨1, 7, 3, 86400, 90000, .pending, 0⟩], 1⟩ 1 7 60
      ⟨1, 7, 3, 86400, 90000, .pending, 0⟩ rfl rfl
      ⟨by decide, by decide⟩).2 (by norm_num)).1

/-! ## C6: completion timing -/

/-- **C6**: for an existing booking, `complete_booking` fails with an
InvalidState-kind error whenever `now < end_time`, and succeeds — moving the
booking to Completed and returning the updated record — exactly when
`now ≥ end_time` and the status is Confirmed. -/
theorem complete_timing (db : DB) (bid : Nat) (now : Int) (b : Booking)
    (hb : BookingRepository.get_by_id db bid = some b) :
    (now < b.end_time →
      ∃ e, (BookingService.complete_booking db bid now).1 = .error e ∧
        Err.kind e = .invalidState) ∧
    ((∃ b', (BookingService.complete_booking db bid now).1 = .ok b') ↔
      b.status = .confirmed ∧ b.end_time ≤ now) ∧
    (b.status = .confirmed → b.end_time ≤ now →
      (BookingService.complete_booking db bid now).1 =
        .ok { b with status := .completed }) := by
  rw [complete_booking_eq, hb]
  dsimp only
  by_cases hc : b.status = BookingStatus.confirmed
  · rw [if_neg (by simp [hc])]
    by_cases he : b.end_time > now
    · rw [if_pos he]
      refine ⟨fun _ => ⟨.beforeEndTime, rfl, rfl⟩, ?_, fun _ h => absurd h (by omega)⟩
      exact iff_of_false (by rintro ⟨b', hb'⟩; cases hb') (by rintro ⟨_, h⟩; omega)
    · rw [if_neg he]
      refine ⟨fun h => absurd h (by omega), ?_, fun _ _ => rfl⟩
      exact iff_of_true ⟨{ b with status := .completed }, rfl⟩ ⟨hc, by omega⟩
  · rw [if_pos (by simp [hc])]
    refine ⟨fun _ => ⟨.onlyConfirmedComplete, rfl, rfl⟩, ?_, fun h => absurd h hc⟩
    exact iff_of_false (by rintro ⟨b', hb'⟩; cases hb') (by rintro ⟨h, _⟩; exact hc h)

/-- Witness for C6: completing a confirmed booking before its end fails with
an InvalidState-kind error; at/after its end it succeeds. -/
theorem complete_timing_witness :
    (∃ e, (BookingService.complete_booking ⟨[⟨1, 7, 3, 0, 100, .confirmed, 0⟩], 1⟩ 1 50).1 =
        .error e ∧ Err.kind e = .invalidState) ∧
    (BookingService.complete_booking ⟨[⟨1, 7, 3, 0, 100, .confirmed, 0⟩], 1⟩ 1 100).1 =
        .ok ⟨1, 7, 3, 0, 100, .completed, 0⟩ := by
  constructor
  · exact (complete_timing ⟨[⟨1, 7, 3, 0, 100, .confirmed, 0⟩], 1⟩ 1 50
      ⟨1, 7, 3, 0, 100, .confirmed, 0⟩ rfl).1 (by norm_num)
  · exact (complete_timing ⟨[⟨1, 7, 3, 0, 100, .confirmed, 0⟩], 1⟩ 1 100
      ⟨1, 7, 3, 0, 100, .confirmed, 0⟩ rfl).2.2 rfl (by norm_num)

/-! ## C3: create's precondition order and error kinds -/

/-- **C3**: `create_booking` checks its preconditions in order — user
exists, service exists, service active, start strictly in the future — the
first failing check's error is raised, and the four error outcomes (plus the
conflict error) carry the distinct taxonomy kinds NotFound / NotFound /
InvalidState / InvalidInput / Conflict. -/
theorem create_precondition_order (env : Env) (db : DB) (uid sid : Nat) (st now : Int) :
    (userGetById env uid = none →
      (BookingService.create_booking env db uid sid st now).1 =
        .error .userNotFound) ∧
    (userGetById env uid ≠ none → serviceGetById env sid = none →
      (BookingService.create_booking env db uid sid st now).1 =
        .error .serviceNotFound) ∧
    (∀ svc, userGetById env uid ≠ none → serviceGetById env sid = some svc →
      svc.is_active = false →
      (BookingService.create_booking env db uid sid st now).1 =
        .error .serviceUnavailable) ∧
    (∀ svc, userGetById env uid ≠ none → serviceGetById env sid = some svc →
      svc.is_active = true → st ≤ now →
      (BookingService.create_booking env db uid sid st now).1 =
        .error .startNotFuture) ∧
    (Err.kind .userNotFound = .notFound ∧ Err.kind .serviceNotFound = .notFound ∧
      Err.kind .serviceUnavailable = .invalidState ∧
      Err.kind .startNotFuture = .invalidInput ∧ Err.kind .slotConflict = .conflict ∧
      ErrKind.notFound ≠ .invalidState ∧ ErrKind.notFound ≠ .invalidInput ∧
      ErrKind.notFound ≠ .conflict ∧ ErrKind.invalidState ≠ .invalidInput ∧
      ErrKind.invalidState ≠ .conflict ∧ ErrKind.invalidInput ≠ .conflict) := by
  refine ⟨?_, ?_, ?_, ?_, by decide⟩
  · intro hu
    unfold BookingService.create_booking
    rw [hu]
  · intro hu hs
    unfold BookingService.create_booking
    cases hu' : userGetById env uid with
    | none => exact absurd hu' hu
    | some u => rw [hs]
  · intro svc hu hs hact
    unfold BookingService.create_booking
    cases hu' : userGetById env uid with
    | none => exact absurd hu' hu
    | some u =>
      rw [hs]
      dsimp only
      rw [if_pos (by simp [hact])]
  · intro svc hu hs hact hpast
    unfold BookingService.create_booking
    cases hu' : userGetById env uid with
    | none => exact absurd hu' hu
    | some u =>
      rw [hs]
      dsimp only
      rw [if_neg (by simp [hact]), if_pos hpast]

/-- Witness for C3: each of the four precondition errors fires at a concrete
input, in order. -/
theorem create_precondition_order_witness :
    (BookingService.create_booking ⟨[], []⟩ ⟨[], 0⟩ 1 2 100 0).1 =
        .error .userNotFound ∧
    (BookingService.create_booking ⟨[⟨1⟩], []⟩ ⟨[], 0⟩ 1 2 100 0).1 =
        .error .serviceNotFound ∧
    (BookingService.create_booking ⟨[⟨1⟩], [⟨2, 60, false⟩]⟩ ⟨[], 0⟩ 1 2 100 0).1 =
        .error .serviceUnavailable ∧
    (BookingService.create_booking ⟨[⟨1⟩], [⟨2, 60, true⟩]⟩ ⟨[], 0⟩ 1 2 100 200).1 =
        .error .startNotFuture := by
  refine ⟨?_, ?_, ?_, ?_⟩
  · exact (create_precondition_order ⟨[], []⟩ ⟨[], 0⟩ 1 2 100 0).1 rfl
  · exact (create_precondition_order ⟨[⟨1⟩], []⟩ ⟨[], 0⟩ 1 2 100 0).2.1 (by decide) rfl
  · exact (create_precondition_order ⟨[⟨1⟩], [⟨2, 60, false⟩]⟩ ⟨[], 0⟩ 1 2 100 0).2.2.1
      ⟨2, 60, false⟩ (by decide) rfl rfl
  · exact (create_precondition_order ⟨[⟨1⟩], [⟨2, 60, true⟩]⟩ ⟨[], 0⟩ 1 2 100 200).2.2.2.1
      ⟨2, 60, true⟩ (by decide) rfl rfl (by norm_num)

/-! ## C7: atomicity of create -/

/-- **C7**: a failing `create_booking` call performs no write at all — the
store (bookings and id counter) is returned unchanged — while a successful
call allocates exactly one new id and appends exactly the returned record. -/
theorem create_atomicity (env : Env) (db : DB) (uid sid : Nat) (st now : Int) :
    (∀ e, (BookingService.create_booking env db uid sid st now).1 = .error e →
      (BookingService.create_booking env db uid sid st now).2 = db) ∧
    (∀ b, (BookingService.create_booking env db uid sid st now).1 = .ok b →
      (BookingService.create_booking env db uid sid st now).2.counterSeq =
          db.counterSeq + 1 ∧
        (BookingService.create_booking env db uid sid st now).2.bookings =
          db.bookings ++ [b] ∧
        b.id = db.counterSeq + 1) := by
  unfold BookingService.create_booking
  cases hu : userGetById env uid with
  | none => exact ⟨fun _ _ => rfl, fun b hb => by cases hb⟩
  | some u =>
    cases hs : serviceGetById env sid with
    | none => exact ⟨fun _ _ => rfl, fun b hb => by cases hb⟩
    | some svc =>
      dsimp only
      split_ifs with h1 h2 h3
      · exact ⟨fun _ _ => rfl, fun b hb => by cases hb⟩
      · exact ⟨fun _ _ => rfl, fun b hb => by cases hb⟩
      · exact ⟨fun _ _ => rfl, fun b hb => by cases hb⟩
      · constructor
        · intro e he
          cases he
        · intro b hb
          obtain rfl : (BookingRepository.create db uid sid st
              (st + 60 * (svc.duration_minutes : Int)) .pending now).1 = b := by
            injection hb
          exact ⟨rfl, rfl, rfl⟩

/-- Witness for C7: a concrete failing create leaves the store untouched; a
concrete successful create allocates id 1 and appends one record. -/
theorem create_atomicity_witness :
    (BookingService.create_booking ⟨[], []⟩ ⟨[], 5⟩ 1 2 100 0).2 = ⟨[], 5⟩ ∧
    (BookingService.create_booking ⟨[⟨1⟩], [⟨2, 60, true⟩]⟩ ⟨[], 5⟩ 1 2 100 0).2.bookings =
      [⟨6, 1, 2, 100, 3700, .pending, 0⟩] := by
  constructor
  · exact (create_atomicity ⟨[], []⟩ ⟨[], 5⟩ 1 2 100 0).1 .userNotFound rfl
  · have h := (create_atomicity ⟨[⟨1⟩], [⟨2, 60, true⟩]⟩ ⟨[], 5⟩ 1 2 100 0).2
      ⟨6, 1, 2, 100, 3700, .pending, 0⟩ rfl
    exact h.2.1

/-! ## C9: frame property of the status transitions -/

/-- A `map Booking.core` equality forces equal collection lengths. -/
theorem length_eq_of_map_core_eq {l l' : List Booking}
    (h : l'.map Booking.core = l.map Booking.core) : l'.length = l.length := by
  have h1 := congrArg List.length h
  simpa using h1

/-- **C9**: `confirm_booking`, `cancel_booking` and `complete_booking`
modify at most the `status` field of stored bookings — `id`, `user_id`,
`service_id`, `start_time`, `end_time` and `created_at` of every stored
record are preserved (`Booking.core` is unchanged collection-wide), no
record is ever removed (the collection length is preserved), and the id
counter is untouched. -/
theorem transition_frame_property :
    ∀ (db : DB) (bid : Nat) (now : Int),
      (∀ uid : Option Nat,
        (BookingService.confirm_booking db bid uid now).2.bookings.map Booking.core =
            db.bookings.map Booking.core ∧
          (BookingService.confirm_booking db bid uid now).2.counterSeq = db.counterSeq ∧
          (BookingService.confirm_booking db bid uid now).2.bookings.length =
            db.bookings.length) ∧
      (∀ uid : Nat,
        (BookingService.cancel_booking db bid uid now).2.bookings.map Booking.core =
            db.bookings.map Booking.core ∧
          (BookingService.cancel_booking db bid uid now).2.counterSeq = db.counterSeq ∧
          (BookingService.cancel_booking db bid uid now).2.bookings.length =
            db.bookings.length) ∧
      ((BookingService.complete_booking db bid now).2.bookings.map Booking.core =
          db.bookings.map Booking.core ∧
        (BookingService.complete_booking db bid now).2.counterSeq = db.counterSeq ∧
        (BookingService.complete_booking db bid now).2.bookings.length =
          db.bookings.length) := by
  intro db bid now
  refine ⟨?_, ?_, ?_⟩
  · intro uid
    rw [confirm_booking_eq]
    cases hb : BookingRepository.get_by_id db bid with
    | none => exact ⟨rfl, rfl, rfl⟩
    | some b =>
      dsimp only
      split_ifs
      · exact ⟨rfl, rfl, rfl⟩
      · exact ⟨rfl, rfl, rfl⟩
      · exact ⟨rfl, rfl, rfl⟩
      · exact ⟨setStatusFirst_map_core db.bookings bid .confirmed, rfl,
          length_eq_of_map_core_eq (setStatusFirst_map_core db.bookings bid .confirmed)⟩
  · intro uid
    rw [cancel_booking_eq]
    cases hb : BookingRepository.get_by_id db bid with
    | none => exact ⟨rfl, rfl, rfl⟩
    | some b =>
      dsimp only
      split_ifs
      · exact ⟨rfl, rfl, rfl⟩
      · exact ⟨rfl, rfl, rfl⟩
      · exact ⟨rfl, rfl, rfl⟩
      · exact ⟨setStatusFirst_map_core db.bookings bid .cancelled, rfl,
          length_eq_of_map_core_eq (setStatusFirst_map_core db.bookings bid .cancelled)⟩
  · rw [complete_booking_eq]
    cases hb : BookingRepository.get_by_id db bid with
    | none => exact ⟨rfl, rfl, rfl⟩
    | some b =>
      dsimp only
      split_ifs
      · exact ⟨rfl, rfl, rfl⟩
      · exact ⟨rfl, rfl, rfl⟩
      · exact ⟨setStatusFirst_map_core db.bookings bid .completed, rfl,
          length_eq_of_map_core_eq (setStatusFirst_map_core db.bookings bid .completed)⟩

/-! ## C5: terminal-state closure -/

/-- Position-wise view of the first-match status rewrite: every slot is
either untouched, or it held the collection's first id-match and only its
status moved to `s`. -/
theorem setStatusFirst_get? (l : List Booking) (i : Nat) (s : BookingStatus) (n : Nat) :
    (BookingRepository.setStatusFirst l i s).get? n = l.get? n ∨
      ∃ b, l.get? n = some b ∧
        (BookingRepository.setStatusFirst l i s).get? n = some { b with status := s } ∧
        l.find? (fun x => x.id == i) = some b := by
  induction l generalizing n with
  | nil => left; rfl
  | cons a rest ih =>
    cases ha : (a.id == i) with
    | true =>
      cases n with
      | zero =>
        right
        exact ⟨a, rfl, by simp [BookingRepository.setStatusFirst, ha],
          find?_cons_true (fun x => x.id == i) a rest ha⟩
      | succ m =>
        left
        simp [BookingRepository.setStatusFirst, ha]
    | false =>
      cases n with
      | zero =>
        left
        simp [BookingRepository.setStatusFirst, ha]
      | succ m =>
        rcases ih m with hsame | ⟨b, hb, hb', hfind⟩
        · left
          simpa [BookingRepository.setStatusFirst, ha] using hsame
        · right
          refine ⟨b, by simpa using hb, by simpa [BookingRepository.setStatusFirst, ha] using hb', ?_⟩
          rw [find?_cons_false (fun x => x.id == i) a rest ha]
          exact hfind

/-- **C5 (counterexample)**: the claim "from a terminal status each of
confirm, cancel, complete fails with InvalidState" is false as stated when
the caller is not the owner: cancelling a Cancelled booking owned by user 7
with actor 99 fails with the Unauthorized-kind error, not an
InvalidState-kind one (the ownership check runs before the status check). -/
theorem terminal_invalidstate_counterexample :
    (BookingService.cancel_booking ⟨[⟨1, 7, 3, 1000, 2000, .cancelled, 0⟩], 1⟩ 1 99 0).1 =
        .error .unauthorizedCancel ∧
    Err.kind .unauthorizedCancel = .unauthorized ∧
    ErrKind.unauthorized ≠ ErrKind.invalidState :=
  ⟨rfl, rfl, by decide⟩

/-- A create call either leaves the store untouched (any failure) or returns
`.ok` and appends exactly the returned record while bumping the counter. -/
theorem create_booking_state (env : Env) (db : DB) (u s : Nat) (st n : Int) :
    (BookingService.create_booking env db u s st n).2 = db ∨
    ∃ nb, (BookingService.create_booking env db u s st n).1 = .ok nb ∧
      nb.status = .pending ∧ nb.id = db.counterSeq + 1 ∧
      (BookingService.create_booking env db u s st n).2 =
        { bookings := db.bookings ++ [nb], counterSeq := db.counterSeq + 1 } := by
  unfold BookingService.create_booking
  cases hu : userGetById env u with
  | none => exact Or.inl rfl
  | some usr =>
    cases hs : serviceGetById env s with
    | none => exact Or.inl rfl
    | some svc =>
      dsimp only
      split_ifs
      · exact Or.inl rfl
      · exact Or.inl rfl
      · exact Or.inl rfl
      · exact Or.inr ⟨_, rfl, rfl, rfl, rfl⟩

/-- **C5 (amended)**: for every stored booking in a terminal status
(Cancelled or Completed), each of confirm, cancel and complete — when its
ownership check passes (cancel invoked by the owner; confirm with a falsy or
matching actor id) — fails with an InvalidState-kind error and leaves the
store unchanged; moreover, across all four engine operations, a stored
booking's status either stays put or moves along one of the four legal
edges Pending→Confirmed, Pending→Cancelled, Confirmed→Cancelled,
Confirmed→Completed (so no fifth status and no exit from a terminal state
is ever produced). -/
theorem terminal_closure_and_legal_edges :
    (∀ (db : DB) (bid : Nat) (now : Int) (b : Booking),
      BookingRepository.get_by_id db bid = some b →
      b.status = .cancelled ∨ b.status = .completed →
      (∀ uid : Option Nat, (truthyId uid && b.user_id != uid.getD 0) = false →
        (BookingService.confirm_booking db bid uid now).1 =
            .error .onlyPendingConfirm ∧
          (BookingService.confirm_booking db bid uid now).2 = db) ∧
      ((BookingService.cancel_booking db bid b.user_id now).1 =
          .error (.cannotCancelStatus b.status) ∧
        (BookingService.cancel_booking db bid b.user_id now).2 = db) ∧
      ((BookingService.complete_booking db bid now).1 =
          .error .onlyConfirmedComplete ∧
        (BookingService.complete_booking db bid now).2 = db) ∧
      Err.kind .onlyPendingConfirm = .invalidState ∧
      Err.kind (.cannotCancelStatus b.status) = .invalidState ∧
      Err.kind .onlyConfirmedComplete = .invalidState) ∧
    (∀ (env : Env) (db : DB) (op : Op) (n : Nat) (b b' : Booking),
      db.bookings.get? n = some b →
      (applyOp env db op).bookings.get? n = some b' →
      b'.status = b.status ∨ allowedEdge b.status b'.status) := by
  constructor
  · intro db bid now b hb hterm
    have hnp : b.status ≠ BookingStatus.pending := by
      rcases hterm with h | h <;> simp [h]
    have hnc : b.status ≠ BookingStatus.confirmed := by
      rcases hterm with h | h <;> simp [h]
    refine ⟨?_, ?_, ?_, rfl, rfl, rfl⟩
    · intro uid huid
      rw [confirm_booking_eq, hb]
      dsimp only
      rw [if_neg (by simp [huid]), if_pos hnp]
      exact ⟨rfl, rfl⟩
    · rw [cancel_booking_eq, hb]
      dsimp only
      rw [if_neg (by simp), if_pos hterm]
      exact ⟨rfl, rfl⟩
    · rw [complete_booking_eq, hb]
      dsimp only
      rw [if_pos hnc]
      exact ⟨rfl, rfl⟩
  · intro env db op n b b' hb hb'
    cases op with
    | create u s st nw =>
      left
      simp only [applyOp] at hb'
      rcases create_booking_state env db u s st nw with hsame | ⟨nb, _, _, _, hnew⟩
      · rw [hsame, hb] at hb'
        injection hb' with h
        rw [← h]
      · rw [hnew] at hb'
        dsimp only at hb'
        have hlt : n < db.bookings.length := (List.get?_eq_some.mp hb).1
        rw [List.get?_append hlt, hb] at hb'
        injection hb' with h
        rw [← h]
    | confirm bid uid nw =>
      simp only [applyOp] at hb'
      rw [confirm_booking_eq] at hb'
      revert hb'
      cases hbk : BookingRepository.get_by_id db bid with
      | none =>
        intro hb'
        dsimp only at hb'
        left
        rw [hb] at hb'
        injection hb' with h
        rw [← h]
      | some bk =>
        dsimp only
        split_ifs with h1 h2s h3s <;> intro hb' <;> dsimp only at hb'
        · left
          rw [hb] at hb'
          injection hb' with h
          rw [← h]
        · left
          rw [hb] at hb'
          injection hb' with h
          rw [← h]
        · left
          rw [hb] at hb'
          injection hb' with h
          rw [← h]
        · have hpend : bk.status = BookingStatus.pending := not_not.mp h2s
          rcases setStatusFirst_get? db.bookings bid .confirmed n with hsame | ⟨c, hc, hc', hfind⟩
          · left
            rw [hsame, hb] at hb'
            injection hb' with h
            rw [← h]
          · right
            have hcb : c = b := by
              rw [hb] at hc
              injection hc with h
              exact h.symm
            have hbkc : bk.status = b.status := by
              have hx : some bk = some c := hbk.symm.trans hfind
              have hbk2 : bk = c := by injection hx
              rw [hbk2, hcb]
            rw [hc'] at hb'
            injection hb' with h
            rw [← h]
            exact Or.inl ⟨by rw [← hbkc]; exact hpend, rfl⟩
    | cancel bid uid nw =>
      simp only [applyOp] at hb'
      rw [cancel_booking_eq] at hb'
      revert hb'
      cases hbk : BookingRepository.get_by_id db bid with
      | none =>
        intro hb'
        dsimp only at hb'
        left
        rw [hb] at hb'
        injection hb' with h
        rw [← h]
      | some bk =>
        dsimp only
        split_ifs with h1 h2s h3s <;> intro hb' <;> dsimp only at hb'
        · left
          rw [hb] at hb'
          injection hb' with h
          rw [← h]
        · left
          rw [hb] at hb'
          injection hb' with h
          rw [← h]
        · left
          rw [hb] at hb'
          injection hb' with h
          rw [← h]
        · rcases setStatusFirst_get? db.bookings bid .cancelled n with hsame | ⟨c, hc, hc', hfind⟩
          · left
            rw [hsame, hb] at hb'
            injection hb' with h
            rw [← h]
          · right
            have hcb : c = b := by
              rw [hb] at hc
              injection hc with h
              exact h.symm
            have hbkc : bk.status = b.status := by
              have hx : some bk = some c := hbk.symm.trans hfind
              have hbk2 : bk = c := by injection hx
              rw [hbk2, hcb]
            rw [hc'] at hb'
            injection hb' with h
            rw [← h]
            cases hstat : bk.status with
            | pending => exact Or.inr (Or.inl ⟨by rw [← hbkc, hstat], rfl⟩)
            | confirmed => exact Or.inr (Or.inr (Or.inl ⟨by rw [← hbkc, hstat], rfl⟩))
            | cancelled => exact absurd (Or.inl hstat) h2s
            | completed => exact absurd (Or.inr hstat) h2s
    | complete bid nw =>
      simp only [applyOp] at hb'
      rw [complete_booking_eq] at hb'
      revert hb'
      cases hbk : BookingRepository.get_by_id db bid with
      | none =>
        intro hb'
        dsimp only at hb'
        left
        rw [hb] at hb'
        injection hb' with h
        rw [← h]
      | some bk =>
        dsimp only
        split_ifs with h1 h2s <;> intro hb' <;> dsimp only at hb'
        · left
          rw [hb] at hb'
          injection hb' with h
          rw [← h]
        · left
          rw [hb] at hb'
          injection hb' with h
          rw [← h]
        · have hcf : bk.status = BookingStatus.confirmed := not_not.mp h1
          rcases setStatusFirst_get? db.bookings bid .completed n with hsame | ⟨c, hc, hc', hfind⟩
          · left
            rw [hsame, hb] at hb'
            injection hb' with h
            rw [← h]
          · right
            have hcb : c = b := by
              rw [hb] at hc
              injection hc with h
              exact h.symm
            have hbkc : bk.status = b.status := by
              have hx : some bk = some c := hbk.symm.trans hfind
              have hbk2 : bk = c := by injection hx
              rw [hbk2, hcb]
            rw [hc'] at hb'
            injection hb' with h
            rw [← h]
            exact Or.inr (Or.inr (Or.inr ⟨by rw [← hbkc]; exact hcf, rfl⟩))

/-- Witness for C5 (amended): on a concrete Completed booking, confirm (by
owner), cancel (by owner) and complete all fail with InvalidState-kind
errors and leave the store unchanged. -/
theorem terminal_closure_witness :
    (BookingService.confirm_booking ⟨[⟨1, 7, 3, 1000, 2000, .completed, 5⟩], 1⟩ 1 (some 7) 0).1 =
        .error .onlyPendingConfirm ∧
    (BookingService.cancel_booking ⟨[⟨1, 7, 3, 1000, 2000, .completed, 5⟩], 1⟩ 1 7 0).1 =
        .error (.cannotCancelStatus .completed) ∧
    (BookingService.complete_booking ⟨[⟨1, 7, 3, 1000, 2000, .completed, 5⟩], 1⟩ 1 0).1 =
        .error .onlyConfirmedComplete := by
  have h := (terminal_closure_and_legal_edges.1
    ⟨[⟨1, 7, 3, 1000, 2000, .completed, 5⟩], 1⟩ 1 0
    ⟨1, 7, 3, 1000, 2000, .completed, 5⟩ rfl (Or.inr rfl))
  exact ⟨(h.1 (some 7) (by decide)).1, h.2.1.1, h.2.2.1.1⟩

/-! ## C1: the no-double-booking invariant -/

/-- `isActiveStatus` unfolded to a disjunction. -/
theorem isActiveStatus_iff (s : BookingStatus) :
    isActiveStatus s = true ↔ s = .pending ∨ s = .confirmed := by
  cases s <;> simp [isActiveStatus]

/-- Changing only the status of one side weakens `activeConflict`, provided
the new status is active only if the old one was. -/
theorem restatus_conflict {b x : Booking} {s : BookingStatus}
    (hact : isActiveStatus s = true → isActiveStatus b.status = true) :
    (activeConflict x { b with status := s } → activeConflict x b) ∧
    (activeConflict { b with status := s } x → activeConflict b x) := by
  constructor
  · rintro ⟨h1, h2, h3, h4, h5⟩
    exact ⟨h1, h2, hact h3, h4, h5⟩
  · rintro ⟨h1, h2, h3, h4, h5⟩
    exact ⟨h1, hact h2, h3, h4, h5⟩

/-- A first-match status rewrite preserves the no-double-booking invariant
whenever the new status is active only if the rewritten booking's old one
was (confirm rewrites an active Pending booking; cancel and complete write
inactive statuses). -/
theorem noDoubleBooking_setStatusFirst (l : List Booking) (i : Nat) (s : BookingStatus)
    (b : Booking) (hfind : l.find? (fun x => x.id == i) = some b)
    (hact : isActiveStatus s = true → isActiveStatus b.status = true)
    (hinv : NoDoubleBooking l) :
    NoDoubleBooking (BookingRepository.setStatusFirst l i s) := by
  obtain ⟨l1, l2, hl, hl1, hs⟩ := setStatusFirst_decomp l i s b hfind
  subst hl
  rw [hs]
  unfold NoDoubleBooking at hinv ⊢
  rw [List.pairwise_append] at hinv ⊢
  obtain ⟨p1, p2, p12⟩ := hinv
  rw [List.pairwise_cons] at p2 ⊢
  obtain ⟨pb, p2'⟩ := p2
  refine ⟨p1, ⟨?_, p2'⟩, ?_⟩
  · intro y hy hconf
    exact pb y hy ((restatus_conflict hact).2 hconf)
  · intro x hx y hy
    rcases List.mem_cons.mp hy with rfl | hy2
    · intro hconf
      exact p12 x hx b (List.mem_cons_self b l2) ((restatus_conflict hact).1 hconf)
    · exact p12 x hx y (List.mem_cons_of_mem _ hy2)

/-- Appending a record that conflicts with nothing preserves the invariant. -/
theorem noDoubleBooking_append (l : List Booking) (x : Booking)
    (hinv : NoDoubleBooking l) (hno : ∀ a ∈ l, ¬ activeConflict a x) :
    NoDoubleBooking (l ++ [x]) := by
  unfold NoDoubleBooking
  rw [List.pairwise_append]
  refine ⟨hinv, List.pairwise_singleton _ _, ?_⟩
  intro a ha y hy
  rw [List.mem_singleton] at hy
  subst hy
  exact hno a ha

/-- Every store state reachable through the engine satisfies the
no-double-booking invariant. -/
theorem reachable_noDoubleBooking (env : Env) (db : DB) (h : Reachable env db) :
    NoDoubleBooking db.bookings := by
  induction h with
  | init => exact List.Pairwise.nil
  | step db op _ ih =>
    cases op with
    | create u s st nw =>
      show NoDoubleBooking (BookingService.create_booking env db u s st nw).2.bookings
      unfold BookingService.create_booking
      cases hu : userGetById env u with
      | none => exact ih
      | some usr =>
        cases hs : serviceGetById env s with
        | none => exact ih
        | some svc =>
          dsimp only
          split_ifs with h1 h2 h3
          · exact ih
          · exact ih
          · exact ih
          · have hconf : BookingRepository.get_conflicting_bookings db s st
                (st + 60 * (svc.duration_minutes : Int)) = [] := not_not.mp h3
            apply noDoubleBooking_append _ _ ih
            intro a ha hac
            obtain ⟨hsrv, hacta, _, hlt, hgt⟩ := hac
            have hmem := (mem_get_conflicting_bookings db s st
                (st + 60 * (svc.duration_minutes : Int)) a).mpr
              ⟨ha, hsrv, (isActiveStatus_iff a.status).mp hacta, hlt, hgt⟩
            rw [hconf] at hmem
            exact absurd hmem (List.not_mem_nil a)
    | confirm bid uid nw =>
      show NoDoubleBooking (BookingService.confirm_booking db bid uid nw).2.bookings
      rw [confirm_booking_eq]
      cases hbk : BookingRepository.get_by_id db bid with
      | none => exact ih
      | some bk =>
        dsimp only
        split_ifs with h1 h2 h3
        · exact ih
        · exact ih
        · exact ih
        · exact noDoubleBooking_setStatusFirst db.bookings bid .confirmed bk hbk
            (fun _ => by rw [not_not.mp h2]; rfl) ih
    | cancel bid uid nw =>
      show NoDoubleBooking (BookingService.cancel_booking db bid uid nw).2.bookings
      rw [cancel_booking_eq]
      cases hbk : BookingRepository.get_by_id db bid with
      | none => exact ih
      | some bk =>
        dsimp only
        split_ifs with h1 h2 h3
        · exact ih
        · exact ih
        · exact ih
        · exact noDoubleBooking_setStatusFirst db.bookings bid .cancelled bk hbk
            (fun hfalse => absurd hfalse (by decide)) ih
    | complete bid nw =>
      show NoDoubleBooking (BookingService.complete_booking db bid nw).2.bookings
      rw [complete_booking_eq]
      cases hbk : BookingRepository.get_by_id db bid with
      | none => exact ih
      | some bk =>
        dsimp only
        split_ifs with h1 h2
        · exact ih
        · exact ih
        · exact noDoubleBooking_setStatusFirst db.bookings bid .completed bk hbk
            (fun hfalse => absurd hfalse (by decide)) ih

/-- **C1**: (i) every store state reachable via the engine's operations
satisfies the no-double-booking invariant — no two distinct stored bookings
are simultaneously Pending/Confirmed for the same service on overlapping
windows; (ii) when an active (Pending or Confirmed) booking overlaps the
requested window of an otherwise valid create for the same service, the
create fails with the Conflict error; (iii) when no active booking for the
service overlaps the window (in particular once the previously conflicting
booking is Cancelled), the create succeeds and stores a Pending booking. -/
theorem no_double_booking_invariant :
    (∀ (env : Env) (db : DB), Reachable env db → NoDoubleBooking db.bookings) ∧
    (∀ (env : Env) (db : DB) (uid sid : Nat) (st now : Int) (svc : Service) (b : Booking),
      userGetById env uid ≠ none → serviceGetById env sid = some svc →
      svc.is_active = true → now < st →
      b ∈ db.bookings → b.service_id = sid →
      (b.status = .pending ∨ b.status = .confirmed) →
      b.start_time < st + 60 * (svc.duration_minutes : Int) → b.end_time > st →
      (BookingService.create_booking env db uid sid st now).1 =
        .error .slotConflict) ∧
    (∀ (env : Env) (db : DB) (uid sid : Nat) (st now : Int) (svc : Service),
      userGetById env uid ≠ none → serviceGetById env sid = some svc →
      svc.is_active = true → now < st →
      (∀ b ∈ db.bookings, b.service_id = sid →
        (b.status = .pending ∨ b.status = .confirmed) →
        ¬(b.start_time < st + 60 * (svc.duration_minutes : Int) ∧ b.end_time > st)) →
      ∃ nb, (BookingService.create_booking env db uid sid st now).1 = .ok nb ∧
        nb.status = .pending) := by
  refine ⟨reachable_noDoubleBooking, ?_, ?_⟩
  · intro env db uid sid st now svc b hu hs hact htime hb hsrv hstat hlt hgt
    unfold BookingService.create_booking
    cases hu' : userGetById env uid with
    | none => exact absurd hu' hu
    | some usr =>
      rw [hs]
      dsimp only
      rw [if_neg (by simp [hact]), if_neg (by omega)]
      rw [if_pos ?_]
      intro hnil
      have hmem := (mem_get_conflicting_bookings db sid st
          (st + 60 * (svc.duration_minutes : Int)) b).mpr ⟨hb, hsrv, hstat, hlt, hgt⟩
      rw [hnil] at hmem
      exact absurd hmem (List.not_mem_nil b)
  · intro env db uid sid st now svc hu hs hact htime hno
    unfold BookingService.create_booking
    cases hu' : userGetById env uid with
    | none => exact absurd hu' hu
    | some usr =>
      rw [hs]
      dsimp only
      rw [if_neg (by simp [hact]), if_neg (by omega)]
      have hnil : BookingRepository.get_conflicting_bookings db sid st
          (st + 60 * (svc.duration_minutes : Int)) = [] := by
        rw [List.eq_nil_iff_forall_not_mem]
        intro b hmem
        obtain ⟨hb, hsrv, hstat, hlt, hgt⟩ := (mem_get_conflicting_bookings db sid st
            (st + 60 * (svc.duration_minutes : Int)) b).mp hmem
        exact hno b hb hsrv hstat ⟨hlt, hgt⟩
      rw [if_neg (by simp [hnil])]
      exact ⟨_, rfl, rfl⟩

/-- Witness for C1, the spec's §8 scenario: with service 3 (60 min, active)
and user 7, the store holding booking A `[10:00, 11:00)` Pending is
double-booking-free; attempting B at 10:30 fails with Conflict; with A
Cancelled, B at 10:30 succeeds as Pending. -/
theorem no_double_booking_invariant_witness :
    NoDoubleBooking
      (applyOp ⟨[⟨7⟩], [⟨3, 60, true⟩]⟩ ⟨[], 0⟩ (.create 7 3 36000 0)).bookings ∧
    (BookingService.create_booking ⟨[⟨7⟩], [⟨3, 60, true⟩]⟩
        ⟨[⟨1, 7, 3, 36000, 39600, .pending, 0⟩], 1⟩ 7 3 37800 0).1 =
      .error .slotConflict ∧
    (∃ nb, (BookingService.create_booking ⟨[⟨7⟩], [⟨3, 60, true⟩]⟩
        ⟨[⟨1, 7, 3, 36000, 39600, .cancelled, 0⟩], 1⟩ 7 3 37800 0).1 = .ok nb ∧
      nb.status = .pending) := by
  refine ⟨no_double_booking_invariant.1 ⟨[⟨7⟩], [⟨3, 60, true⟩]⟩ _
      (Reachable.step _ _ Reachable.init), ?_, ?_⟩
  · exact no_double_booking_invariant.2.1 ⟨[⟨7⟩], [⟨3, 60, true⟩]⟩
      ⟨[⟨1, 7, 3, 36000, 39600, .pending, 0⟩], 1⟩ 7 3 37800 0 ⟨3, 60, true⟩
      ⟨1, 7, 3, 36000, 39600, .pending, 0⟩ (by decide) rfl rfl (by norm_num)
      (by simp) rfl (Or.inl rfl) (by norm_num) (by norm_num)
  · exact no_double_booking_invariant.2.2 ⟨[⟨7⟩], [⟨3, 60, true⟩]⟩
      ⟨[⟨1, 7, 3, 36000, 39600, .cancelled, 0⟩], 1⟩ 7 3 37800 0 ⟨3, 60, true⟩
      (by decide) rfl rfl (by norm_num)
      (by
        intro b hb hsrv hstat
        rcases List.mem_singleton.mp hb with rfl
        rcases hstat with h | h <;> exact absurd h (by decide))
